import Mathlib

/-!
Shallow embedding of the statement-diagnostics registry
(`pkg/sql/stmtdiagnostics/statement_diagnostics.go`).

Machine times (`time.Time`, `time.Duration`) are modelled as `Int`
(nanoseconds / instants); a `time.Time` zero value or SQL NULL is `none` in
an `Option Int`.  The Go `float64` sampling probability is modelled as `ℚ`:
the code only ever compares probabilities (`< 0`, `> 1`, `!= 0`, and the
uniform draw `u < p`), never does arithmetic on them, so an ordered field
with decidable comparison is a faithful model.  The PRNG draw is passed in
as an explicit argument `u`.  Go maps are modelled as association lists
with `lookupKey` / `eraseKey` / `insertKey`.
-/

namespace StmtDiag

/-- `RequestID` is the id column of `statement_diagnostics_requests`; zero is
invalid ("no id"). -/
abbrev RequestID := Nat

/-- `Request` mirrors the Go struct: fingerprint, sampling probability,
minimum execution latency and expiry instant (`none` = Go zero time). -/
structure Request where
  fingerprint : String
  samplingProbability : ℚ
  minExecutionLatency : Int
  expiresAt : Option Int
  deriving DecidableEq

/-- `isExpired` mirrors `!r.expiresAt.IsZero() && r.expiresAt.Before(now)`. -/
def Request.isExpired (r : Request) (now : Int) : Bool :=
  match r.expiresAt with
  | none => false
  | some t => t < now

/-- `isConditional` mirrors `r.minExecutionLatency != 0`. -/
def Request.isConditional (r : Request) : Bool :=
  r.minExecutionLatency != 0

/-- The Go zero value `Request{}`. -/
def Request.empty : Request := ⟨"", 0, 0, none⟩

/-- A Go `map[RequestID]Request`, as an association list. -/
abbrev ReqMap := List (RequestID × Request)

/-- Map read `m[id]`. -/
def lookupKey (id : RequestID) : ReqMap → Option Request
  | [] => none
  | p :: l => if p.1 = id then some p.2 else lookupKey id l

/-- Map delete `delete(m, id)`. -/
def eraseKey (id : RequestID) : ReqMap → ReqMap
  | [] => []
  | p :: l => if p.1 = id then eraseKey id l else p :: eraseKey id l

/-- Map write `m[id] = req`. -/
def insertKey (id : RequestID) (req : Request) (m : ReqMap) : ReqMap :=
  (id, req) :: eraseKey id m

/-- The mutex-guarded portion of `Registry`: the two maps and the epoch. -/
structure RegistryState where
  requestFingerprints : ReqMap
  unconditionalOngoing : ReqMap
  epoch : Int
  deriving DecidableEq

/-- `findRequestLocked`: reports whether the id is known; an expired entry in
`requestFingerprints` is deleted, yet `true` is still returned. -/
def findRequestLocked (s : RegistryState) (requestID : RequestID) (now : Int) :
    RegistryState × Bool :=
  match lookupKey requestID s.requestFingerprints with
  | some f =>
      if f.isExpired now then
        ({ s with requestFingerprints := eraseKey requestID s.requestFingerprints }, true)
      else (s, true)
  | none => (s, (lookupKey requestID s.unconditionalOngoing).isSome)

/-- `findRequest`: takes the mutex and delegates to `findRequestLocked`. -/
def findRequest (s : RegistryState) (requestID : RequestID) (now : Int) :
    RegistryState × Bool :=
  findRequestLocked s requestID now

/-- `addRequestInternalLocked`: a no-op when the id is already known,
otherwise inserts into `requestFingerprints`. -/
def addRequestInternalLocked (s : RegistryState) (id : RequestID) (req : Request)
    (now : Int) : RegistryState :=
  let r := findRequestLocked s id now
  if r.2 then r.1
  else { r.1 with requestFingerprints := insertKey id req r.1.requestFingerprints }

/-- `cancelRequest`: deletes the id from both maps (and touches nothing else,
in particular not the epoch). -/
def cancelRequest (s : RegistryState) (id : RequestID) : RegistryState :=
  { s with requestFingerprints := eraseKey id s.requestFingerprints,
           unconditionalOngoing := eraseKey id s.unconditionalOngoing }

/-- `RemoveOngoing`: for a conditional request, prune from
`requestFingerprints` when expired; for an unconditional one, drop from
`unconditionalOngoing`. -/
def removeOngoing (s : RegistryState) (id : RequestID) (req : Request)
    (now : Int) : RegistryState :=
  if req.isConditional then
    if req.isExpired now then
      { s with requestFingerprints := eraseKey id s.requestFingerprints }
    else s
  else { s with unconditionalOngoing := eraseKey id s.unconditionalOngoing }

/-- `IsExecLatencyConditionMet`: true iff the observed latency reaches the
request's minimum; on false an expired conditional entry is pruned. -/
def isExecLatencyConditionMet (s : RegistryState) (requestID : RequestID)
    (req : Request) (execLatency now : Int) : RegistryState × Bool :=
  if req.minExecutionLatency ≤ execLatency then (s, true)
  else if req.isExpired now then
    ({ s with requestFingerprints := eraseKey requestID s.requestFingerprints }, false)
  else (s, false)

/-- `ShouldCollectDiagnostics`: the hot-path admission check.  `u` is the
uniform draw the PRNG would produce if consulted.  Returns the new state and
the `(shouldCollect, reqID, req)` triple. -/
def shouldCollectDiagnostics (s : RegistryState) (fingerprint : String)
    (now : Int) (u : ℚ) : RegistryState × Bool × RequestID × Request :=
  if s.requestFingerprints.length = 0 then (s, false, 0, Request.empty)
  else
    match s.requestFingerprints.find? (fun p => p.2.fingerprint = fingerprint) with
    | none => (s, false, 0, Request.empty)
    | some (id, f) =>
      if f.isExpired now then
        ({ s with requestFingerprints := eraseKey id s.requestFingerprints },
         false, 0, Request.empty)
      else if id = 0 then (s, false, 0, Request.empty)
      else
        let s1 :=
          if !f.isConditional then
            { s with
              unconditionalOngoing := insertKey id f s.unconditionalOngoing,
              requestFingerprints := eraseKey id s.requestFingerprints }
          else s
        if f.samplingProbability = 0 ∨ u < f.samplingProbability then (s1, true, id, f)
        else (s1, false, 0, Request.empty)

/-! ### Poller -/

/-- One row returned by the poller's `SELECT` over
`statement_diagnostics_requests` (completed = false, not expired). -/
structure PollRow where
  id : RequestID
  fingerprint : String
  minExecutionLatency : Int
  expiresAt : Option Int
  samplingProbability : ℚ
  deriving DecidableEq

/-- The `Request` value built from a polled row. -/
def rowToRequest (row : PollRow) : Request :=
  ⟨row.fingerprint, row.samplingProbability, row.minExecutionLatency, row.expiresAt⟩

/-- The reconciliation body of `pollRequests`, once the query results are in
hand and the epoch has been re-checked: `addRequestInternalLocked` for every
row, then delete every `requestFingerprints` entry whose id is not in the row
set or whose value has expired. -/
def applyPollRows (s : RegistryState) (rows : List PollRow) (now : Int) :
    RegistryState :=
  let s1 := rows.foldl (fun acc row =>
    addRequestInternalLocked acc row.id (rowToRequest row) now) s
  let pending1 := s1.requestFingerprints.filter
    (fun p => (rows.map (fun row => row.id)).contains p.1 && !p.2.isExpired now)
  { s1 with requestFingerprints := pending1 }

/-- The add phase of `applyPollRows`. -/
def foldAddRows (s : RegistryState) (rows : List PollRow) (now : Int) :
    RegistryState :=
  rows.foldl (fun acc row =>
    addRequestInternalLocked acc row.id (rowToRequest row) now) s

/-- The C2 invariant: a `RequestID` is in at most one of the two maps. -/
def disjointMaps (s : RegistryState) : Prop :=
  ∀ k : RequestID, lookupKey k s.requestFingerprints = none ∨
    lookupKey k s.unconditionalOngoing = none

/-- One iteration of the `pollRequests` retry loop: `epochBefore` is the epoch
snapshotted before the SQL read and `s` the registry state when the mutex is
re-acquired.  `none` means the epoch changed, so the stale snapshot is
discarded and the read retried with no index mutation applied. -/
def pollStep (epochBefore : Int) (s : RegistryState) (rows : List PollRow)
    (now : Int) : Option RegistryState :=
  if s.epoch != epochBefore then none else some (applyPollRows s rows now)

/-! ### Catalog model -/

/-- A row of `system.statement_diagnostics_requests`. -/
structure RequestRow where
  id : Nat
  fingerprint : String
  minExecutionLatency : Int
  expiresAt : Option Int
  samplingProbability : Option ℚ
  completed : Bool
  statementDiagnosticsId : Option Nat
  requestedAt : Int
  deriving DecidableEq

/-- A row of `system.statement_diagnostics`. -/
structure DiagRow where
  id : Nat
  fingerprint : String
  statement : String
  collectedAt : Int
  bundleChunks : List Nat
  errorMsg : Option String
  deriving DecidableEq

/-- A row of `system.statement_bundle_chunks`. -/
structure ChunkRow where
  id : Nat
  description : String
  data : List Nat
  deriving DecidableEq

/-- The catalog tables; `nextId` models the ids the database hands out to
`RETURNING id` inserts, sequentially. -/
structure DB where
  requests : List RequestRow
  diagnostics : List DiagRow
  chunks : List ChunkRow
  nextId : Nat
  deriving DecidableEq

/-- `SELECT count(1) FROM statement_diagnostics_requests WHERE id = requestID
AND completed = false`. -/
def countPendingById (db : DB) (requestID : Nat) : Nat :=
  (db.requests.filter (fun row => row.id == requestID && !row.completed)).length

/-- `expires_at IS NULL OR expires_at > now()`. -/
def expiresOk (expiresAt : Option Int) (now : Int) : Bool :=
  match expiresAt with
  | none => true
  | some t => now < t

/-- `SELECT count(1) ... WHERE completed = false AND statement_fingerprint =
fp AND (expires_at IS NULL OR expires_at > now())`. -/
def countPendingByFingerprint (db : DB) (fp : String) (now : Int) : Nat :=
  (db.requests.filter (fun row =>
    !row.completed && row.fingerprint == fp && expiresOk row.expiresAt now)).length

/-! ### Completion writer (`InsertStatementDiagnostics`) -/

/-- The chunking loop of `InsertStatementDiagnostics`: while bytes remain,
take the next `chunkSize`-byte chunk.  (The loop never runs with a chunk size
below 16: the setting's validator rejects such values.) -/
def chunkBundle : Nat → List Nat → List (List Nat)
  | _, [] => []
  | 0, _ :: _ => []
  | s + 1, a :: l => ((a :: l).take (s + 1)) :: chunkBundle (s + 1) ((a :: l).drop (s + 1))
  termination_by _s b => b.length
  decreasing_by simp; omega

/-- The `statement_bundle_chunks` rows inserted for the listed chunks, with
ids handed out sequentially from `startId`. -/
def mkChunkRows : Nat → List (List Nat) → List ChunkRow
  | _, [] => []
  | i, piece :: rest =>
      ⟨i, "statement diagnostics bundle", piece⟩ :: mkChunkRows (i + 1) rest

/-- `InsertStatementDiagnostics`, modelled on the successful-transaction path
(an executor failure aborts the whole transaction leaving `db` unchanged).
Returns the new catalog state and the collected-instance id (0 = none). -/
def insertStatementDiagnostics (db : DB) (requestID : Nat)
    (stmtFingerprint stmt : String) (bundle : List Nat)
    (collectionErr : Option String) (chunkSize : Nat) (now : Int) : DB × Nat :=
  if requestID != 0 && countPendingById db requestID == 0 then
    (db, 0)
  else
    let pieces := chunkBundle chunkSize bundle
    let chunkRows := mkChunkRows db.nextId pieces
    let diagID := db.nextId + pieces.length
    let diagRow : DiagRow :=
      ⟨diagID, stmtFingerprint, stmt, now, chunkRows.map (fun c => c.id), collectionErr⟩
    if requestID != 0 then
      ({ requests := db.requests.map (fun row =>
           if row.id = requestID then
             { row with completed := true, statementDiagnosticsId := some diagID }
           else row),
         diagnostics := db.diagnostics ++ [diagRow],
         chunks := db.chunks ++ chunkRows,
         nextId := diagID + 1 }, diagID)
    else
      ({ requests := db.requests ++
           [⟨diagID + 1, stmtFingerprint, 0, none, none, true, some diagID, now⟩],
         diagnostics := db.diagnostics ++ [diagRow],
         chunks := db.chunks ++ chunkRows,
         nextId := diagID + 2 }, diagID)

/-! ### Insert / Cancel API -/

/-- Outcome of `insertRequestInternal`: the catalog, the registry state,
whether a gossip notification was broadcast, and the returned id (`none` =
error). -/
structure InsertOutcome where
  db : DB
  reg : RegistryState
  gossipSent : Bool
  result : Option RequestID
  deriving DecidableEq

/-- `insertRequestInternal`: gossip-availability check, cluster-version gate
on sampling, the two validation checks, the duplicate-fingerprint check, the
catalog insert, the local epoch bump + add, and the gossip broadcast. -/
def insertRequestInternal (db : DB) (s : RegistryState)
    (gossipAvailable samplingSupported : Bool) (stmtFingerprint : String)
    (samplingProbability : ℚ) (minExecutionLatency expiresAfter now : Int) :
    InsertOutcome :=
  if !gossipAvailable then ⟨db, s, false, none⟩
  else if !samplingSupported && samplingProbability != 0 then ⟨db, s, false, none⟩
  else if samplingProbability < 0 ∨ 1 < samplingProbability then ⟨db, s, false, none⟩
  else if samplingProbability != 0 && minExecutionLatency == 0 then ⟨db, s, false, none⟩
  else if countPendingByFingerprint db stmtFingerprint now != 0 then ⟨db, s, false, none⟩
  else
    let reqID : RequestID := db.nextId
    let expiresAt : Option Int :=
      if expiresAfter != 0 then some (now + expiresAfter) else none
    let row : RequestRow :=
      ⟨reqID, stmtFingerprint, minExecutionLatency, expiresAt,
       if samplingProbability != 0 then some samplingProbability else none,
       false, none, now⟩
    let db1 : DB := { db with requests := db.requests ++ [row], nextId := db.nextId + 1 }
    let s1 := { s with epoch := s.epoch + 1 }
    let s2 := addRequestInternalLocked s1 reqID
      ⟨stmtFingerprint, samplingProbability, minExecutionLatency, expiresAt⟩ now
    ⟨db1, s2, true, some reqID⟩

/-- Outcome of `CancelRequest`. -/
structure CancelOutcome where
  db : DB
  reg : RegistryState
  gossipSent : Bool
  ok : Bool
  deriving DecidableEq

/-- `CancelRequest`: the catalog `UPDATE ... SET expires_at = '1970-01-01'
WHERE completed = false AND id = $1 AND (expires_at IS NULL OR expires_at >
now()) RETURNING id`; `updateFails` models the executor failing the UPDATE.
On either error (failed UPDATE or no returned row) nothing local happens;
otherwise the local `cancelRequest` runs and gossip is broadcast.
`pastInstant` stands for the 1970-01-01 timestamp. -/
def pastInstant : Int := 0

def cancelRequestApi (db : DB) (s : RegistryState)
    (gossipAvailable updateFails : Bool) (requestID : Nat) (now : Int) :
    CancelOutcome :=
  if !gossipAvailable then ⟨db, s, false, false⟩
  else if updateFails then ⟨db, s, false, false⟩
  else
    let matched := db.requests.filter (fun row =>
      !row.completed && row.id == requestID && expiresOk row.expiresAt now)
    if matched.length == 0 then ⟨db, s, false, false⟩
    else
      let db1 : DB := { db with requests := db.requests.map (fun row =>
        if !row.completed && row.id == requestID && expiresOk row.expiresAt now then
          { row with expiresAt := some pastInstant }
        else row) }
      ⟨db1, cancelRequest s requestID, true, true⟩

/-! ### Association-list lemmas -/

theorem lookupKey_eraseKey (k j : RequestID) (m : ReqMap) :
    lookupKey k (eraseKey j m) = if k = j then none else lookupKey k m := by
  induction m with
  | nil => by_cases hk : k = j <;> simp [eraseKey, lookupKey, hk]
  | cons p l ih =>
      by_cases hp : p.1 = j
      · rw [eraseKey, if_pos hp, ih]
        by_cases hk : k = j
        · simp [hk]
        · have hpk : p.1 ≠ k := by rw [hp]; exact fun h => hk h.symm
          simp [lookupKey, hpk, hk]
      · rw [eraseKey, if_neg hp]
        by_cases hpk : p.1 = k
        · have hk : ¬ k = j := by rw [← hpk]; exact hp
          simp [lookupKey, hpk, hk]
        · simp [lookupKey, hpk, ih]

theorem lookupKey_insertKey (k j : RequestID) (v : Request) (m : ReqMap) :
    lookupKey k (insertKey j v m) = if k = j then some v else lookupKey k m := by
  by_cases hk : k = j
  · simp [insertKey, lookupKey, hk]
  · have hj : ¬ j = k := fun h => hk h.symm
    rw [insertKey, lookupKey, if_neg hj, lookupKey_eraseKey, if_neg hk, if_neg hk]

theorem mem_eraseKey {p : RequestID × Request} {j : RequestID} {m : ReqMap}
    (h : p ∈ eraseKey j m) : p ∈ m ∧ p.1 ≠ j := by
  induction m with
  | nil => simp [eraseKey] at h
  | cons q l ih =>
      by_cases hq : q.1 = j
      · simp only [eraseKey, if_pos hq] at h
        exact ⟨List.mem_cons_of_mem _ (ih h).1, (ih h).2⟩
      · simp only [eraseKey, if_neg hq] at h
        rcases List.mem_cons.mp h with h | h
        · exact ⟨by simp [h], by simp [h, hq]⟩
        · exact ⟨List.mem_cons_of_mem _ (ih h).1, (ih h).2⟩

theorem lookupKey_filter_none (k : RequestID) (P : RequestID × Request → Bool)
    (m : ReqMap) (h : lookupKey k m = none) :
    lookupKey k (m.filter P) = none := by
  induction m with
  | nil => simp [lookupKey]
  | cons p l ih =>
      simp only [lookupKey] at h
      by_cases hp : p.1 = k
      · simp [hp] at h
      · simp only [if_neg hp] at h
        by_cases hP : P p <;> simp [List.filter, hP, lookupKey, hp, ih h]

theorem lookupKey_filter_keyfalse (k : RequestID) (P : RequestID × Request → Bool)
    (m : ReqMap) (h : ∀ v, P (k, v) = false) :
    lookupKey k (m.filter P) = none := by
  induction m with
  | nil => simp [lookupKey]
  | cons p l ih =>
      by_cases hP : P p
      · have hp : p.1 ≠ k := by
          intro hk
          have : P (k, p.2) = false := h p.2
          rw [show (k, p.2) = p by rw [← hk]] at this
          simp [hP] at this
        simp [List.filter, hP, lookupKey, hp, ih]
      · simp [List.filter, hP, ih]

theorem lookupKey_filter_some {k : RequestID} {P : RequestID × Request → Bool}
    {m : ReqMap} {v : Request} (h : lookupKey k m = some v)
    (hP : P (k, v) = true) :
    lookupKey k (m.filter P) = some v := by
  induction m with
  | nil => simp [lookupKey] at h
  | cons p l ih =>
      by_cases hp : p.1 = k
      · have hv : p.2 = v := by
          have := h; rw [lookupKey, if_pos hp] at this; exact Option.some.inj this
        have hpkv : p = (k, v) := by
          rcases p with ⟨a, b⟩
          simp only at hp hv
          rw [hp, hv]
        rw [hpkv]
        simp [List.filter, hP, lookupKey]
      · have h' : lookupKey k l = some v := by
          have := h; rwa [lookupKey, if_neg hp] at this
        by_cases hPp : P p <;> simp [List.filter, hPp, lookupKey, hp, ih h']

theorem keys_eraseKey_sublist (j : RequestID) (m : ReqMap) :
    ((eraseKey j m).map Prod.fst).Sublist (m.map Prod.fst) := by
  induction m with
  | nil => simp [eraseKey]
  | cons p l ih =>
      by_cases hp : p.1 = j
      · rw [eraseKey, if_pos hp, List.map_cons]
        exact ih.cons p.1
      · rw [eraseKey, if_neg hp, List.map_cons, List.map_cons]
        exact ih.cons₂ p.1

theorem nodup_keys_eraseKey {j : RequestID} {m : ReqMap}
    (h : (m.map Prod.fst).Nodup) : ((eraseKey j m).map Prod.fst).Nodup :=
  (keys_eraseKey_sublist j m).nodup h

theorem not_mem_keys_eraseKey (j : RequestID) (m : ReqMap) :
    j ∉ (eraseKey j m).map Prod.fst := by
  intro h
  rcases List.mem_map.mp h with ⟨p, hp, hpj⟩
  exact (mem_eraseKey hp).2 hpj

theorem nodup_keys_insertKey {j : RequestID} {v : Request} {m : ReqMap}
    (h : (m.map Prod.fst).Nodup) : ((insertKey j v m).map Prod.fst).Nodup := by
  simp only [insertKey, List.map_cons, List.nodup_cons]
  exact ⟨not_mem_keys_eraseKey j m, nodup_keys_eraseKey h⟩

theorem nodup_keys_filter {P : RequestID × Request → Bool} {m : ReqMap}
    (h : (m.map Prod.fst).Nodup) : ((m.filter P).map Prod.fst).Nodup :=
  ((m.filter_sublist).map Prod.fst).nodup h

/-! ### Chunking lemmas -/

theorem chunkBundle_flatten : ∀ (s : Nat) (b : List Nat), 0 < s →
    (chunkBundle s b).flatten = b
  | 0, _, hs => (Nat.lt_irrefl 0 hs).elim
  | _ + 1, [], _ => by simp [chunkBundle]
  | s + 1, a :: l, hs => by
      rw [chunkBundle, List.flatten_cons,
        chunkBundle_flatten (s + 1) ((a :: l).drop (s + 1)) hs]
      exact List.take_append_drop (s + 1) (a :: l)
  termination_by s b _ => b.length
  decreasing_by simp; omega

theorem chunkBundle_length : ∀ (s : Nat) (b : List Nat), 0 < s →
    (chunkBundle s b).length = (b.length + s - 1) / s
  | 0, _, hs => (Nat.lt_irrefl 0 hs).elim
  | s + 1, [], _ => by
      rw [chunkBundle, List.length_nil, List.length_nil,
        Nat.div_eq_of_lt (by omega)]
  | s + 1, a :: l, hs => by
      rw [chunkBundle, List.length_cons,
        chunkBundle_length (s + 1) ((a :: l).drop (s + 1)) hs,
        List.length_drop, List.length_cons]
      by_cases hls : l.length + 1 ≤ s + 1
      · have e1 : (l.length + 1 - (s + 1) + (s + 1) - 1) / (s + 1) = 0 :=
          Nat.div_eq_of_lt (by omega)
        have e2 : (l.length + 1 + (s + 1) - 1) / (s + 1) = 1 := by
          have e : l.length + 1 + (s + 1) - 1 = l.length + (s + 1) := by omega
          rw [e, Nat.add_div_right _ (by omega), Nat.div_eq_of_lt (by omega)]
        rw [e1, e2]
      · have e3 : l.length + 1 + (s + 1) - 1 =
            (l.length + 1 - (s + 1) + (s + 1) - 1) + (s + 1) := by omega
        rw [e3, Nat.add_div_right _ (by omega)]
  termination_by s b _ => b.length
  decreasing_by simp; omega

theorem chunkBundle_mem_length_le : ∀ (s : Nat) (b c : List Nat),
    c ∈ chunkBundle s b → c.length ≤ s
  | _, [], c, h => by simp [chunkBundle] at h
  | 0, _ :: _, c, h => by simp [chunkBundle] at h
  | s + 1, a :: l, c, h => by
      rw [chunkBundle] at h
      rcases List.mem_cons.mp h with h | h
      · rw [h]; exact List.length_take_le (s + 1) (a :: l)
      · exact chunkBundle_mem_length_le (s + 1) ((a :: l).drop (s + 1)) c h
  termination_by s b c _h => b.length
  decreasing_by simp; omega

theorem mkChunkRows_map_id : ∀ (i : Nat) (ps : List (List Nat)),
    (mkChunkRows i ps).map (fun c => c.id) = List.range' i ps.length
  | _, [] => by simp [mkChunkRows]
  | i, p :: ps => by
      rw [mkChunkRows, List.map_cons, mkChunkRows_map_id (i + 1) ps,
        List.length_cons, List.range'_succ]

theorem mkChunkRows_map_data : ∀ (i : Nat) (ps : List (List Nat)),
    (mkChunkRows i ps).map (fun c => c.data) = ps
  | _, [] => by simp [mkChunkRows]
  | i, p :: ps => by
      rw [mkChunkRows, List.map_cons, mkChunkRows_map_data (i + 1) ps]

theorem mkChunkRows_length : ∀ (i : Nat) (ps : List (List Nat)),
    (mkChunkRows i ps).length = ps.length
  | _, [] => by simp [mkChunkRows]
  | i, p :: ps => by
      rw [mkChunkRows, List.length_cons, mkChunkRows_length (i + 1) ps,
        List.length_cons]

/-! ### Registry operation lemmas -/

theorem lookupKey_eq_none_iff (k : RequestID) (m : ReqMap) :
    lookupKey k m = none ↔ k ∉ m.map Prod.fst := by
  induction m with
  | nil => simp [lookupKey]
  | cons p l ih =>
      rw [List.map_cons, List.mem_cons, lookupKey]
      by_cases hp : p.1 = k
      · simp [hp]
      · simp only [if_neg hp, ih]
        constructor
        · intro h hk
          rcases hk with hk | hk
          · exact hp hk.symm
          · exact h hk
        · intro h hk
          exact h (Or.inr hk)

theorem addReq_eq (s : RegistryState) (id : RequestID) (req : Request) (now : Int) :
    addRequestInternalLocked s id req now =
      match lookupKey id s.requestFingerprints with
      | some f =>
          if f.isExpired now then
            { s with requestFingerprints := eraseKey id s.requestFingerprints }
          else s
      | none =>
          if (lookupKey id s.unconditionalOngoing).isSome then s
          else { s with requestFingerprints := insertKey id req s.requestFingerprints } := by
  unfold addRequestInternalLocked findRequestLocked
  cases hl : lookupKey id s.requestFingerprints with
  | none =>
      by_cases ho : (lookupKey id s.unconditionalOngoing).isSome <;> simp [ho]
  | some f =>
      by_cases he : f.isExpired now <;> simp [he]

theorem addReq_ongoing (s : RegistryState) (id : RequestID) (req : Request) (now : Int) :
    (addRequestInternalLocked s id req now).unconditionalOngoing =
      s.unconditionalOngoing := by
  rw [addReq_eq]
  cases lookupKey id s.requestFingerprints <;> dsimp only <;> split <;> rfl

theorem addReq_epoch (s : RegistryState) (id : RequestID) (req : Request) (now : Int) :
    (addRequestInternalLocked s id req now).epoch = s.epoch := by
  rw [addReq_eq]
  cases lookupKey id s.requestFingerprints <;> dsimp only <;> split <;> rfl

theorem addReq_pending_other (s : RegistryState) (id : RequestID) (req : Request)
    (now : Int) (k : RequestID) (hk : k ≠ id) :
    lookupKey k (addRequestInternalLocked s id req now).requestFingerprints =
      lookupKey k s.requestFingerprints := by
  rw [addReq_eq]
  cases lookupKey id s.requestFingerprints <;> dsimp only <;> split <;>
    simp [lookupKey_eraseKey, lookupKey_insertKey, hk]

theorem addReq_pending_live (s : RegistryState) (id : RequestID) (req : Request)
    (now : Int) (k : RequestID) (v : Request)
    (hv : lookupKey k s.requestFingerprints = some v)
    (hne : v.isExpired now = false) :
    lookupKey k (addRequestInternalLocked s id req now).requestFingerprints =
      some v := by
  by_cases hk : k = id
  · subst hk
    rw [addReq_eq, hv]
    dsimp only
    rw [hne]
    exact hv
  · rw [addReq_pending_other s id req now k hk]
    exact hv

theorem addReq_pending_absent (s : RegistryState) (id : RequestID) (req : Request)
    (now : Int) (hp : lookupKey id s.requestFingerprints = none)
    (ho : lookupKey id s.unconditionalOngoing = none) :
    lookupKey id (addRequestInternalLocked s id req now).requestFingerprints =
      some req := by
  rw [addReq_eq, hp]
  dsimp only
  rw [ho]
  simp [lookupKey_insertKey]

theorem addReq_pending_some_or_none (s : RegistryState) (id : RequestID)
    (req : Request) (now : Int) (k : RequestID) (v : Request)
    (hv : lookupKey k s.requestFingerprints = some v) :
    lookupKey k (addRequestInternalLocked s id req now).requestFingerprints =
        some v ∨
      lookupKey k (addRequestInternalLocked s id req now).requestFingerprints =
        none := by
  by_cases hk : k = id
  · subst hk
    rw [addReq_eq, hv]
    dsimp only
    by_cases he : v.isExpired now
    · rw [he]
      simp [lookupKey_eraseKey]
    · rw [Bool.not_eq_true] at he
      rw [he]
      exact Or.inl hv
  · rw [addReq_pending_other s id req now k hk]
    exact Or.inl hv

theorem addReq_pending_nodup (s : RegistryState) (id : RequestID) (req : Request)
    (now : Int) (h : (s.requestFingerprints.map Prod.fst).Nodup) :
    ((addRequestInternalLocked s id req now).requestFingerprints.map Prod.fst).Nodup := by
  rw [addReq_eq]
  cases lookupKey id s.requestFingerprints <;> dsimp only <;> split <;>
    first
      | exact h
      | exact nodup_keys_eraseKey h
      | exact nodup_keys_insertKey h

theorem lookupKey_filter_some_false {k : RequestID} {P : RequestID × Request → Bool}
    {m : ReqMap} {v : Request} (h : lookupKey k m = some v)
    (hP : P (k, v) = false) (hnd : (m.map Prod.fst).Nodup) :
    lookupKey k (m.filter P) = none := by
  induction m with
  | nil => simp [lookupKey] at h
  | cons p l ih =>
      simp only [List.map_cons, List.nodup_cons] at hnd
      by_cases hp : p.1 = k
      · have hv : p.2 = v := by
          have := h; rw [lookupKey, if_pos hp] at this; exact Option.some.inj this
        have hpkv : p = (k, v) := by
          rcases p with ⟨a, b⟩
          simp only at hp hv
          rw [hp, hv]
        have hnone : lookupKey k l = none := by
          rw [lookupKey_eq_none_iff]
          intro hmem
          rw [hpkv] at hnd
          exact hnd.1 hmem
        rw [hpkv]
        simp [List.filter, hP, lookupKey_filter_none k P l hnone]
      · have h' : lookupKey k l = some v := by
          have := h; rwa [lookupKey, if_neg hp] at this
        by_cases hPp : P p <;>
          simp [List.filter, hPp, lookupKey, hp, ih h' hnd.2]

/-! ### Fold lemmas for the poll reconciliation -/

theorem applyPollRows_pending (s : RegistryState) (rows : List PollRow) (now : Int) :
    (applyPollRows s rows now).requestFingerprints =
      (foldAddRows s rows now).requestFingerprints.filter
        (fun p => (rows.map (fun row => row.id)).contains p.1 &&
          !p.2.isExpired now) := rfl

theorem applyPollRows_ongoing_fold (s : RegistryState) (rows : List PollRow)
    (now : Int) :
    (applyPollRows s rows now).unconditionalOngoing =
      (foldAddRows s rows now).unconditionalOngoing := rfl

theorem applyPollRows_epoch_fold (s : RegistryState) (rows : List PollRow)
    (now : Int) :
    (applyPollRows s rows now).epoch = (foldAddRows s rows now).epoch := rfl

theorem foldAddRows_nil (s : RegistryState) (now : Int) :
    foldAddRows s [] now = s := rfl

theorem foldAddRows_cons (s : RegistryState) (r : PollRow) (rest : List PollRow)
    (now : Int) :
    foldAddRows s (r :: rest) now =
      foldAddRows (addRequestInternalLocked s r.id (rowToRequest r) now) rest now := rfl

theorem foldAddRows_ongoing (rows : List PollRow) (s : RegistryState) (now : Int) :
    (foldAddRows s rows now).unconditionalOngoing = s.unconditionalOngoing := by
  induction rows generalizing s with
  | nil => rfl
  | cons r rest ih =>
      rw [foldAddRows_cons, ih, addReq_ongoing]

theorem foldAddRows_epoch (rows : List PollRow) (s : RegistryState) (now : Int) :
    (foldAddRows s rows now).epoch = s.epoch := by
  induction rows generalizing s with
  | nil => rfl
  | cons r rest ih =>
      rw [foldAddRows_cons, ih, addReq_epoch]

theorem foldAddRows_pending_live (rows : List PollRow) (s : RegistryState)
    (now : Int) (k : RequestID) (v : Request)
    (hv : lookupKey k s.requestFingerprints = some v)
    (hne : v.isExpired now = false) :
    lookupKey k (foldAddRows s rows now).requestFingerprints = some v := by
  induction rows generalizing s with
  | nil => exact hv
  | cons r rest ih =>
      rw [foldAddRows_cons]
      exact ih _ (addReq_pending_live s r.id (rowToRequest r) now k v hv hne)

theorem foldAddRows_pending_other (rows : List PollRow) (s : RegistryState)
    (now : Int) (k : RequestID) (hk : ∀ r ∈ rows, r.id ≠ k) :
    lookupKey k (foldAddRows s rows now).requestFingerprints =
      lookupKey k s.requestFingerprints := by
  induction rows generalizing s with
  | nil => rfl
  | cons r rest ih =>
      rw [foldAddRows_cons, ih _ (fun r' hr' => hk r' (List.mem_cons_of_mem _ hr')),
        addReq_pending_other]
      intro hkr
      exact hk r (List.mem_cons_self r rest) hkr.symm

theorem foldAddRows_pending_added (rows : List PollRow) (s : RegistryState)
    (now : Int) (row : PollRow) (hnd : (rows.map (fun r => r.id)).Nodup)
    (hmem : row ∈ rows)
    (hp : lookupKey row.id s.requestFingerprints = none)
    (ho : lookupKey row.id s.unconditionalOngoing = none) :
    lookupKey row.id (foldAddRows s rows now).requestFingerprints =
      some (rowToRequest row) := by
  induction rows generalizing s with
  | nil => exact absurd hmem (List.not_mem_nil row)
  | cons r rest ih =>
      simp only [List.map_cons, List.nodup_cons] at hnd
      rw [foldAddRows_cons]
      rcases List.mem_cons.mp hmem with hr | hr
      · subst hr
        rw [foldAddRows_pending_other rest _ now row.id ?_,
          addReq_pending_absent s row.id (rowToRequest row) now hp ho]
        intro r' hr' hid
        exact hnd.1 (hid ▸ List.mem_map_of_mem (fun x => x.id) hr')
      · have hid : r.id ≠ row.id := by
          intro h
          exact hnd.1 (h ▸ List.mem_map_of_mem (fun x => x.id) hr)
        refine ih _ hnd.2 hr ?_ ?_
        · rw [addReq_pending_other s r.id (rowToRequest r) now row.id
            (fun h => hid h.symm)]
          exact hp
        · rw [addReq_ongoing]
          exact ho

theorem foldAddRows_pending_some_or_none (rows : List PollRow) (s : RegistryState)
    (now : Int) (k : RequestID) (v : Request)
    (hnd : (rows.map (fun r => r.id)).Nodup)
    (hv : lookupKey k s.requestFingerprints = some v) :
    lookupKey k (foldAddRows s rows now).requestFingerprints = some v ∨
      lookupKey k (foldAddRows s rows now).requestFingerprints = none := by
  induction rows generalizing s with
  | nil => exact Or.inl hv
  | cons r rest ih =>
      simp only [List.map_cons, List.nodup_cons] at hnd
      rw [foldAddRows_cons]
      by_cases hk : k = r.id
      · rcases addReq_pending_some_or_none s r.id (rowToRequest r) now k v hv with h | h
        · exact ih _ hnd.2 h
        · refine Or.inr ?_
          rw [foldAddRows_pending_other rest _ now k ?_]
          · exact h
          · intro r' hr' hid
            have hm : r'.id ∈ rest.map (fun x => x.id) :=
              List.mem_map_of_mem (fun x => x.id) hr'
            rw [hid, hk] at hm
            exact hnd.1 hm
      · refine ih _ hnd.2 ?_
        rw [addReq_pending_other s r.id (rowToRequest r) now k hk]
        exact hv

theorem foldAddRows_pending_nodup (rows : List PollRow) (s : RegistryState)
    (now : Int) (h : (s.requestFingerprints.map Prod.fst).Nodup) :
    ((foldAddRows s rows now).requestFingerprints.map Prod.fst).Nodup := by
  induction rows generalizing s with
  | nil => exact h
  | cons r rest ih =>
      rw [foldAddRows_cons]
      exact ih _ (addReq_pending_nodup s r.id (rowToRequest r) now h)

/-! ### Disjointness preservation -/

theorem disjoint_erase_pending {s : RegistryState} (id : RequestID)
    (h : disjointMaps s) :
    disjointMaps { s with requestFingerprints := eraseKey id s.requestFingerprints } := by
  intro k
  rcases h k with hp | ho
  · left
    rw [lookupKey_eraseKey]
    split <;> [rfl; exact hp]
  · right
    exact ho

theorem disjoint_erase_ongoing {s : RegistryState} (id : RequestID)
    (h : disjointMaps s) :
    disjointMaps { s with unconditionalOngoing := eraseKey id s.unconditionalOngoing } := by
  intro k
  rcases h k with hp | ho
  · left
    exact hp
  · right
    rw [lookupKey_eraseKey]
    split <;> [rfl; exact ho]

theorem disjoint_filter_pending {s : RegistryState} (P : RequestID × Request → Bool)
    (h : disjointMaps s) :
    disjointMaps { s with requestFingerprints := s.requestFingerprints.filter P } := by
  intro k
  rcases h k with hp | ho
  · left
    exact lookupKey_filter_none k P _ hp
  · right
    exact ho

theorem disjoint_move {s : RegistryState} (id : RequestID) (f : Request)
    (h : disjointMaps s) :
    disjointMaps { s with
      unconditionalOngoing := insertKey id f s.unconditionalOngoing,
      requestFingerprints := eraseKey id s.requestFingerprints } := by
  intro k
  by_cases hk : k = id
  · left
    rw [lookupKey_eraseKey, if_pos hk]
  · rcases h k with hp | ho
    · left
      rw [lookupKey_eraseKey, if_neg hk]
      exact hp
    · right
      rw [lookupKey_insertKey, if_neg hk]
      exact ho

theorem addReq_disjoint (s : RegistryState) (id : RequestID) (req : Request)
    (now : Int) (h : disjointMaps s) :
    disjointMaps (addRequestInternalLocked s id req now) := by
  rw [addReq_eq]
  cases hl : lookupKey id s.requestFingerprints with
  | some f =>
      dsimp only
      by_cases he : f.isExpired now
      · rw [if_pos he]
        exact disjoint_erase_pending id h
      · rw [if_neg he]
        exact h
  | none =>
      dsimp only
      by_cases ho : (lookupKey id s.unconditionalOngoing).isSome
      · rw [if_pos ho]
        exact h
      · rw [if_neg ho]
        intro k
        by_cases hk : k = id
        · right
          rw [hk]
          exact Option.not_isSome_iff_eq_none.mp ho
        · rcases h k with hp | hko
          · left
            rw [lookupKey_insertKey, if_neg hk]
            exact hp
          · right
            exact hko

theorem findRequestLocked_state (s : RegistryState) (id : RequestID) (now : Int) :
    (findRequestLocked s id now).1 = s ∨
      (findRequestLocked s id now).1 =
        { s with requestFingerprints := eraseKey id s.requestFingerprints } := by
  unfold findRequestLocked
  cases lookupKey id s.requestFingerprints with
  | none => left; rfl
  | some f =>
      dsimp only
      by_cases he : f.isExpired now
      · rw [if_pos he]
        right
        rfl
      · rw [if_neg he]
        left
        rfl

theorem scd_state (s : RegistryState) (fp : String) (now : Int) (u : ℚ) :
    (shouldCollectDiagnostics s fp now u).1 = s ∨
      (∃ id, (shouldCollectDiagnostics s fp now u).1 =
        { s with requestFingerprints := eraseKey id s.requestFingerprints }) ∨
      (∃ id f, (shouldCollectDiagnostics s fp now u).1 =
        { s with
          unconditionalOngoing := insertKey id f s.unconditionalOngoing,
          requestFingerprints := eraseKey id s.requestFingerprints }) := by
  unfold shouldCollectDiagnostics
  by_cases hlen : s.requestFingerprints.length = 0
  · rw [if_pos hlen]
    left
    rfl
  · rw [if_neg hlen]
    cases hfind : s.requestFingerprints.find? (fun p => p.2.fingerprint = fp) with
    | none => left; rfl
    | some p =>
        rcases p with ⟨id, f⟩
        dsimp only
        by_cases hexp : f.isExpired now
        · rw [if_pos hexp]
          right; left
          exact ⟨id, rfl⟩
        · rw [if_neg hexp]
          by_cases hid : id = 0
          · rw [if_pos hid]
            left
            rfl
          · rw [if_neg hid]
            by_cases hcond : f.isConditional
            · have : (!f.isConditional) = false := by rw [hcond]; rfl
              rw [this]
              left
              dsimp only
              split <;> rfl
            · have : (!f.isConditional) = true := by
                rw [Bool.not_eq_true] at hcond
                rw [hcond]
                rfl
              rw [this]
              right; right
              refine ⟨id, f, ?_⟩
              dsimp only
              split <;> rfl

theorem foldAddRows_disjoint (rows : List PollRow) (s : RegistryState) (now : Int)
    (h : disjointMaps s) : disjointMaps (foldAddRows s rows now) := by
  induction rows generalizing s with
  | nil => exact h
  | cons r rest ih =>
      rw [foldAddRows_cons]
      exact ih _ (addReq_disjoint s r.id (rowToRequest r) now h)

theorem applyPollRows_disjoint (s : RegistryState) (rows : List PollRow) (now : Int)
    (h : disjointMaps s) : disjointMaps (applyPollRows s rows now) :=
  disjoint_filter_pending _ (foldAddRows_disjoint rows s now h)

/-! ### Claim theorems -/

/-- C2: for every state of the in-memory index satisfying the disjointness
invariant (each `RequestID` is in at most one of `requestFingerprints` and
`unconditionalOngoing`), every mutating operation of the index — add-if-absent,
`ShouldCollectDiagnostics`, `cancelRequest`, `RemoveOngoing`, `findRequest`,
and the poll reconciliation — yields a state that still satisfies it. -/
theorem C2_index_disjointness (s : RegistryState) (id : RequestID) (req : Request)
    (fp : String) (now : Int) (u : ℚ) (rows : List PollRow)
    (h : disjointMaps s) :
    disjointMaps (addRequestInternalLocked s id req now) ∧
    disjointMaps (shouldCollectDiagnostics s fp now u).1 ∧
    disjointMaps (cancelRequest s id) ∧
    disjointMaps (removeOngoing s id req now) ∧
    disjointMaps (findRequest s id now).1 ∧
    disjointMaps (applyPollRows s rows now) := by
  refine ⟨addReq_disjoint s id req now h, ?_, ?_, ?_, ?_,
    applyPollRows_disjoint s rows now h⟩
  · rcases scd_state s fp now u with hs | ⟨i, hs⟩ | ⟨i, f, hs⟩ <;> rw [hs]
    · exact h
    · exact disjoint_erase_pending i h
    · exact disjoint_move i f h
  · intro k
    rcases h k with hp | ho
    · left
      show lookupKey k (eraseKey id s.requestFingerprints) = none
      rw [lookupKey_eraseKey]
      split <;> [rfl; exact hp]
    · right
      show lookupKey k (eraseKey id s.unconditionalOngoing) = none
      rw [lookupKey_eraseKey]
      split <;> [rfl; exact ho]
  · unfold removeOngoing
    split
    · split
      · exact disjoint_erase_pending id h
      · exact h
    · exact disjoint_erase_ongoing id h
  · unfold findRequest
    rcases findRequestLocked_state s id now with hs | hs <;> rw [hs]
    · exact h
    · exact disjoint_erase_pending id h

/-- C2 witness: the invariant-preservation theorem applied at a concrete
state. -/
theorem C2_index_disjointness_witness :
    disjointMaps (addRequestInternalLocked ⟨[(1, Request.empty)], [], 0⟩ 2
      Request.empty 0) :=
  (C2_index_disjointness ⟨[(1, Request.empty)], [], 0⟩ 2 Request.empty "" 0 0 []
    (fun _ => Or.inr rfl)).1

/-- C7: a completed run of the poll reconciliation never touches the ongoing
map; it adds each returned row's id when absent from both maps (and not
already expired), deletes exactly the pending ids that are absent from the
row set or expired at poll time, and keeps every other pending entry; and
when the epoch changed during the SQL read, the iteration applies no index
mutation (the read is retried). -/
theorem C7_poll_reconciliation (s : RegistryState) (rows : List PollRow)
    (now epochBefore : Int)
    (hnd : (rows.map (fun r => r.id)).Nodup)
    (hpnd : (s.requestFingerprints.map Prod.fst).Nodup) :
    (s.epoch ≠ epochBefore → pollStep epochBefore s rows now = none) ∧
    (s.epoch = epochBefore →
      pollStep epochBefore s rows now = some (applyPollRows s rows now)) ∧
    (applyPollRows s rows now).unconditionalOngoing = s.unconditionalOngoing ∧
    (∀ row ∈ rows,
      lookupKey row.id s.requestFingerprints = none →
      lookupKey row.id s.unconditionalOngoing = none →
      (rowToRequest row).isExpired now = false →
      lookupKey row.id (applyPollRows s rows now).requestFingerprints =
        some (rowToRequest row)) ∧
    (∀ k v, lookupKey k s.requestFingerprints = some v →
      ((rows.map (fun r => r.id)).contains k = false ∨ v.isExpired now = true) →
      lookupKey k (applyPollRows s rows now).requestFingerprints = none) ∧
    (∀ k v, lookupKey k s.requestFingerprints = some v →
      (rows.map (fun r => r.id)).contains k = true → v.isExpired now = false →
      lookupKey k (applyPollRows s rows now).requestFingerprints = some v) := by
  refine ⟨?_, ?_, ?_, ?_, ?_, ?_⟩
  · intro h
    simp [pollStep, h]
  · intro h
    simp [pollStep, h]
  · rw [applyPollRows_ongoing_fold, foldAddRows_ongoing]
  · intro row hrow hp ho hne
    rw [applyPollRows_pending]
    apply lookupKey_filter_some (foldAddRows_pending_added rows s now row hnd hrow hp ho)
    have hc : (rows.map (fun r => r.id)).contains row.id = true := by
      have : row.id ∈ rows.map (fun r => r.id) :=
        List.mem_map_of_mem (fun r => r.id) hrow
      exact List.elem_eq_true_of_mem this
    show ((rows.map (fun r => r.id)).contains row.id &&
      !(rowToRequest row).isExpired now) = true
    rw [hc, hne]
    rfl
  · intro k v hv hdel
    rw [applyPollRows_pending]
    rcases foldAddRows_pending_some_or_none rows s now k v hnd hv with h1 | h1
    · refine lookupKey_filter_some_false h1 ?_
        (foldAddRows_pending_nodup rows s now hpnd)
      show ((rows.map (fun r => r.id)).contains k && !v.isExpired now) = false
      rcases hdel with hc | he
      · rw [hc]
        rfl
      · rw [he]
        exact Bool.and_false _
    · exact lookupKey_filter_none _ _ _ h1
  · intro k v hv hc hne
    rw [applyPollRows_pending]
    apply lookupKey_filter_some (foldAddRows_pending_live rows s now k v hv hne)
    show ((rows.map (fun r => r.id)).contains k && !v.isExpired now) = true
    rw [hc, hne]
    rfl

/-- C7 witness: the reconciliation theorem applied at a concrete state, row
set and epochs: a mismatched epoch makes the iteration retry without
mutating. -/
theorem C7_poll_reconciliation_witness :
    pollStep 1 ⟨[(1, Request.empty)], [], 0⟩ [] 0 = none :=
  (C7_poll_reconciliation ⟨[(1, Request.empty)], [], 0⟩ [] 0 1
    List.nodup_nil (by simp)).1 (by decide)

theorem find?_unique_match {l : ReqMap} {id : RequestID} {f : Request} {fp : String}
    (hmem : (id, f) ∈ l)
    (honly : ∀ p ∈ l, p.2.fingerprint = fp → p = (id, f))
    (hfp : f.fingerprint = fp) :
    l.find? (fun p => p.2.fingerprint = fp) = some (id, f) := by
  induction l with
  | nil => exact absurd hmem (List.not_mem_nil _)
  | cons q t ih =>
      by_cases hq : q.2.fingerprint = fp
      · rw [honly q (List.mem_cons_self q t) hq]
        simp [hfp]
      · rw [List.find?_cons_of_neg _ (by simpa using hq)]
        have hmem' : (id, f) ∈ t := by
          rcases List.mem_cons.mp hmem with h | h
          · exact absurd (show q.2.fingerprint = fp by rw [← h]; exact hfp) hq
          · exact h
        exact ih hmem' (fun p hp => honly p (List.mem_cons_of_mem _ hp))

/-- The admission path for a matched, live, unconditional request: the entry
moves from pending to ongoing before the sampling draw decides the returned
triple. -/
theorem scd_unconditional_eq (s : RegistryState) (fp : String) (now : Int) (u : ℚ)
    (id : RequestID) (f : Request)
    (hfind : s.requestFingerprints.find? (fun p => p.2.fingerprint = fp) =
      some (id, f))
    (hexp : f.isExpired now = false) (hid : id ≠ 0)
    (hcond : f.isConditional = false) :
    shouldCollectDiagnostics s fp now u =
      ({ s with
          unconditionalOngoing := insertKey id f s.unconditionalOngoing,
          requestFingerprints := eraseKey id s.requestFingerprints },
       if f.samplingProbability = 0 ∨ u < f.samplingProbability then (true, id, f)
       else (false, 0, Request.empty)) := by
  have hlen : s.requestFingerprints.length ≠ 0 := by
    intro h0
    rw [List.length_eq_zero] at h0
    rw [h0] at hfind
    exact Option.noConfusion hfind
  unfold shouldCollectDiagnostics
  rw [if_neg hlen, hfind]
  dsimp only
  rw [if_neg (by rw [hexp]; exact Bool.false_ne_true), if_neg hid]
  simp only [hcond, Bool.not_false, if_true]
  split <;> rfl

/-- C3: in an index whose pending map has exactly one entry matching
fingerprint `fp` — non-expired, unconditional, with a valid id — a call to
`ShouldCollectDiagnostics fp` moves that entry from pending to ongoing, and
every subsequent call on the resulting state returns `(false, 0, Request.empty)`
and changes nothing, for as long as the entry stays in ongoing. -/
theorem C3_unconditional_admitted_once (s : RegistryState) (id : RequestID)
    (req : Request) (fp : String) (now : Int) (u : ℚ)
    (hmem : (id, req) ∈ s.requestFingerprints)
    (honly : ∀ p ∈ s.requestFingerprints, p.2.fingerprint = fp → p = (id, req))
    (hfp : req.fingerprint = fp)
    (hexp : req.isExpired now = false)
    (huncond : req.minExecutionLatency = 0)
    (hid : id ≠ 0) :
    lookupKey id (shouldCollectDiagnostics s fp now u).1.requestFingerprints =
      none ∧
    lookupKey id (shouldCollectDiagnostics s fp now u).1.unconditionalOngoing =
      some req ∧
    ∀ now2 u2,
      shouldCollectDiagnostics (shouldCollectDiagnostics s fp now u).1 fp now2 u2 =
        ((shouldCollectDiagnostics s fp now u).1, false, 0, Request.empty) := by
  have hcond : req.isConditional = false := by
    rw [Request.isConditional, huncond]
    rfl
  have heq := scd_unconditional_eq s fp now u id req
    (find?_unique_match hmem honly hfp) hexp hid hcond
  refine ⟨?_, ?_, ?_⟩
  · rw [heq]
    dsimp only
    rw [lookupKey_eraseKey, if_pos rfl]
  · rw [heq]
    dsimp only
    rw [lookupKey_insertKey, if_pos rfl]
  · intro now2 u2
    rw [heq]
    dsimp only
    have hfind2 : (eraseKey id s.requestFingerprints).find?
        (fun p => p.2.fingerprint = fp) = none := by
      rw [List.find?_eq_none]
      intro p hp hsat
      rcases mem_eraseKey hp with ⟨hpm, hpk⟩
      have := honly p hpm (of_decide_eq_true hsat)
      rw [this] at hpk
      exact hpk rfl
    unfold shouldCollectDiagnostics
    by_cases hlen2 : (eraseKey id s.requestFingerprints).length = 0
    · rw [if_pos hlen2]
    · rw [if_neg hlen2, hfind2]

/-- C3 witness: the theorem applied at a concrete one-entry index. -/
theorem C3_unconditional_admitted_once_witness :
    lookupKey 1 (shouldCollectDiagnostics ⟨[(1, ⟨"q", 0, 0, none⟩)], [], 0⟩ "q" 0
      0).1.unconditionalOngoing = some ⟨"q", 0, 0, none⟩ :=
  (C3_unconditional_admitted_once ⟨[(1, ⟨"q", 0, 0, none⟩)], [], 0⟩ 1
    ⟨"q", 0, 0, none⟩ "q" 0 0 (by simp) (by simp) rfl rfl rfl
    (by decide)).2.1

/-- C5: for a matched pending unconditional request the admission (move to
ongoing) happens before the sampling draw: the entry is in ongoing and out of
pending whatever the draw; with probability 0 or a draw below the probability
the call returns `(true, id, req)`; otherwise it returns
`(false, 0, Request.empty)` while the entry nevertheless stays in ongoing. -/
theorem C5_sampling_consumes_admission (s : RegistryState) (id : RequestID)
    (req : Request) (fp : String) (now : Int) (u : ℚ)
    (hmem : (id, req) ∈ s.requestFingerprints)
    (honly : ∀ p ∈ s.requestFingerprints, p.2.fingerprint = fp → p = (id, req))
    (hfp : req.fingerprint = fp)
    (hexp : req.isExpired now = false)
    (huncond : req.minExecutionLatency = 0)
    (hid : id ≠ 0) :
    lookupKey id (shouldCollectDiagnostics s fp now u).1.unconditionalOngoing =
      some req ∧
    lookupKey id (shouldCollectDiagnostics s fp now u).1.requestFingerprints =
      none ∧
    (req.samplingProbability = 0 ∨ u < req.samplingProbability →
      (shouldCollectDiagnostics s fp now u).2 = (true, id, req)) ∧
    (¬(req.samplingProbability = 0 ∨ u < req.samplingProbability) →
      (shouldCollectDiagnostics s fp now u).2 = (false, 0, Request.empty)) := by
  have hcond : req.isConditional = false := by
    rw [Request.isConditional, huncond]
    rfl
  have heq := scd_unconditional_eq s fp now u id req
    (find?_unique_match hmem honly hfp) hexp hid hcond
  refine ⟨?_, ?_, ?_, ?_⟩
  · rw [heq]
    dsimp only
    rw [lookupKey_insertKey, if_pos rfl]
  · rw [heq]
    dsimp only
    rw [lookupKey_eraseKey, if_pos rfl]
  · intro h
    rw [heq]
    dsimp only
    rw [if_pos h]
  · intro h
    rw [heq]
    dsimp only
    rw [if_neg h]

/-- C5 witness: a request with sampling probability 1/2 and a draw of 3/4:
the call returns false yet the admission is consumed (the entry sits in
ongoing). -/
theorem C5_sampling_consumes_admission_witness :
    lookupKey 1 (shouldCollectDiagnostics
        ⟨[(1, ⟨"q", 1/2, 0, none⟩)], [], 0⟩ "q" 0 (3/4)).1.unconditionalOngoing =
      some ⟨"q", 1/2, 0, none⟩ ∧
    (shouldCollectDiagnostics ⟨[(1, ⟨"q", 1/2, 0, none⟩)], [], 0⟩ "q" 0
        (3/4)).2 = (false, 0, Request.empty) := by
  have h := C5_sampling_consumes_admission ⟨[(1, ⟨"q", 1/2, 0, none⟩)], [], 0⟩ 1
    ⟨"q", 1/2, 0, none⟩ "q" 0 (3/4) (by simp) (by simp) rfl rfl rfl (by decide)
  exact ⟨h.1, h.2.2.2 (by norm_num)⟩

theorem filter_pending_map_complete (l : List RequestRow) (requestID diagID : Nat) :
    ((l.map (fun row =>
        if row.id = requestID then
          { row with completed := true, statementDiagnosticsId := some diagID }
        else row)).filter (fun row => row.id == requestID && !row.completed)) = [] := by
  induction l with
  | nil => rfl
  | cons r t ih =>
      rw [List.map_cons]
      by_cases hr : r.id = requestID
      · rw [if_pos hr]
        rw [List.filter_cons_of_neg (by simp)]
        exact ih
      · rw [if_neg hr]
        rw [List.filter_cons_of_neg (by simp [hr])]
        exact ih

theorem insertStmtDiag_abort (db : DB) (requestID : Nat) (fp stmt : String)
    (bundle : List Nat) (cerr : Option String) (cs : Nat) (now : Int)
    (h0 : requestID ≠ 0) (h : countPendingById db requestID = 0) :
    insertStatementDiagnostics db requestID fp stmt bundle cerr cs now = (db, 0) := by
  unfold insertStatementDiagnostics
  rw [if_pos (by simp [h0, h])]

theorem insertStmtDiag_completes (db : DB) (requestID : Nat) (fp stmt : String)
    (bundle : List Nat) (cerr : Option String) (cs : Nat) (now : Int)
    (h0 : requestID ≠ 0) :
    countPendingById
      (insertStatementDiagnostics db requestID fp stmt bundle cerr cs now).1
      requestID = 0 := by
  by_cases hc : countPendingById db requestID = 0
  · rw [insertStmtDiag_abort db requestID fp stmt bundle cerr cs now h0 hc]
    exact hc
  · unfold insertStatementDiagnostics
    have hcond : (requestID != 0 && countPendingById db requestID == 0) = false := by
      simp [hc]
    rw [hcond]
    rw [if_neg Bool.false_ne_true]
    dsimp only
    rw [if_pos (by simp [h0])]
    dsimp only
    unfold countPendingById
    dsimp only
    rw [filter_pending_map_complete]
    rfl

/-- C1: a call to `InsertStatementDiagnostics` with a nonzero request id that
finds no non-completed row for that id returns collected-id 0 with no error
and leaves the catalog untouched (no chunk rows, no diagnostics row, no
request update); consequently, after any call completes the request, every
further call for the same id succeeds with collected-id 0 and no side
effect — racing completers leave at most one diagnostics writer. -/
theorem C1_completion_at_most_once (db : DB) (requestID : Nat) (fp stmt : String)
    (bundle : List Nat) (cerr : Option String) (cs : Nat) (now : Int)
    (h0 : requestID ≠ 0) :
    (countPendingById db requestID = 0 →
      insertStatementDiagnostics db requestID fp stmt bundle cerr cs now =
        (db, 0)) ∧
    (∀ fp2 stmt2 bundle2 cerr2 cs2 now2,
      insertStatementDiagnostics
        (insertStatementDiagnostics db requestID fp stmt bundle cerr cs now).1
        requestID fp2 stmt2 bundle2 cerr2 cs2 now2 =
      ((insertStatementDiagnostics db requestID fp stmt bundle cerr cs now).1,
        0)) := by
  refine ⟨insertStmtDiag_abort db requestID fp stmt bundle cerr cs now h0, ?_⟩
  intro fp2 stmt2 bundle2 cerr2 cs2 now2
  exact insertStmtDiag_abort _ requestID fp2 stmt2 bundle2 cerr2 cs2 now2 h0
    (insertStmtDiag_completes db requestID fp stmt bundle cerr cs now h0)

/-- C1 witness: the race resolver applied at a concrete catalog with no
pending row for id 7. -/
theorem C1_completion_at_most_once_witness :
    insertStatementDiagnostics ⟨[], [], [], 1⟩ 7 "f" "s" [1, 2] none 16 0 =
      (⟨[], [], [], 1⟩, 0) :=
  (C1_completion_at_most_once ⟨[], [], [], 1⟩ 7 "f" "s" [1, 2] none 16 0
    (by decide)).1 rfl

/-- C4: on the success path (request id zero or a pending row present), with
any chunk size of at least 16 bytes, `InsertStatementDiagnostics` appends
exactly ⌈n / s⌉ chunk rows for an n-byte bundle, each of at most s bytes,
whose in-order concatenation is the bundle, with consecutive ids referenced
in insertion order by the single appended diagnostics row; an empty bundle
yields zero chunk rows and a diagnostics row with an empty chunk list. -/
theorem C4_bundle_chunking (db : DB) (requestID : Nat) (fp stmt : String)
    (bundle : List Nat) (cerr : Option String) (chunkSize : Nat) (now : Int)
    (hcs : 16 ≤ chunkSize)
    (hsucc : requestID = 0 ∨ countPendingById db requestID ≠ 0) :
    (insertStatementDiagnostics db requestID fp stmt bundle cerr chunkSize
        now).1.chunks =
      db.chunks ++ mkChunkRows db.nextId (chunkBundle chunkSize bundle) ∧
    (mkChunkRows db.nextId (chunkBundle chunkSize bundle)).length =
      (bundle.length + chunkSize - 1) / chunkSize ∧
    (∀ c ∈ mkChunkRows db.nextId (chunkBundle chunkSize bundle),
      c.data.length ≤ chunkSize) ∧
    ((mkChunkRows db.nextId (chunkBundle chunkSize bundle)).map
        (fun c => c.data)).flatten = bundle ∧
    (insertStatementDiagnostics db requestID fp stmt bundle cerr chunkSize
        now).1.diagnostics =
      db.diagnostics ++
        [⟨db.nextId + (chunkBundle chunkSize bundle).length, fp, stmt, now,
          (mkChunkRows db.nextId (chunkBundle chunkSize bundle)).map
            (fun c => c.id), cerr⟩] ∧
    (mkChunkRows db.nextId (chunkBundle chunkSize bundle)).map (fun c => c.id) =
      List.range' db.nextId (chunkBundle chunkSize bundle).length ∧
    (bundle = [] → mkChunkRows db.nextId (chunkBundle chunkSize bundle) = []) := by
  have hpos : 0 < chunkSize := by omega
  have hcond : (requestID != 0 && countPendingById db requestID == 0) = false := by
    rcases hsucc with h | h <;> simp [h]
  have hred :
      (insertStatementDiagnostics db requestID fp stmt bundle cerr chunkSize
          now).1.chunks =
        db.chunks ++ mkChunkRows db.nextId (chunkBundle chunkSize bundle) ∧
      (insertStatementDiagnostics db requestID fp stmt bundle cerr chunkSize
          now).1.diagnostics =
        db.diagnostics ++
          [⟨db.nextId + (chunkBundle chunkSize bundle).length, fp, stmt, now,
            (mkChunkRows db.nextId (chunkBundle chunkSize bundle)).map
              (fun c => c.id), cerr⟩] := by
    unfold insertStatementDiagnostics
    rw [hcond]
    rw [if_neg Bool.false_ne_true]
    dsimp only
    by_cases hreq : requestID = 0
    · rw [if_neg (by simp [hreq])]
      exact ⟨rfl, rfl⟩
    · rw [if_pos (by simp [hreq])]
      exact ⟨rfl, rfl⟩
  refine ⟨hred.1, ?_, ?_, ?_, hred.2, mkChunkRows_map_id _ _, ?_⟩
  · rw [mkChunkRows_length, chunkBundle_length chunkSize bundle hpos]
  · intro c hc
    have : c.data ∈ (mkChunkRows db.nextId (chunkBundle chunkSize bundle)).map
        (fun c => c.data) := List.mem_map_of_mem (fun c => c.data) hc
    rw [mkChunkRows_map_data] at this
    exact chunkBundle_mem_length_le chunkSize bundle c.data this
  · rw [mkChunkRows_map_data, chunkBundle_flatten chunkSize bundle hpos]
  · intro hb
    rw [hb]
    have h1 : chunkBundle chunkSize [] = [] := by
      cases chunkSize <;> simp [chunkBundle]
    rw [h1]
    rfl

/-- C4 witness: a five-byte bundle with chunk size 16 yields a single chunk
row holding the whole bundle. -/
theorem C4_bundle_chunking_witness :
    (insertStatementDiagnostics ⟨[], [], [], 1⟩ 0 "f" "s" [1, 2, 3, 4, 5] none 16
        0).1.chunks =
      [] ++ mkChunkRows 1 (chunkBundle 16 [1, 2, 3, 4, 5]) :=
  (C4_bundle_chunking ⟨[], [], [], 1⟩ 0 "f" "s" [1, 2, 3, 4, 5] none 16 0
    (by decide) (Or.inl rfl)).1

/-- C8: an `InsertRequest` whose sampling probability falls outside [0, 1],
or is positive with a zero minimum execution latency, returns an error and
mutates nothing: the catalog, the in-memory index and its epoch are
unchanged, and no gossip notification goes out. -/
theorem C8_insert_validation (db : DB) (s : RegistryState)
    (gossipAvailable samplingSupported : Bool) (fp : String) (p : ℚ)
    (minLat expiresAfter now : Int)
    (h : p < 0 ∨ 1 < p ∨ (0 < p ∧ minLat = 0)) :
    (insertRequestInternal db s gossipAvailable samplingSupported fp p minLat
        expiresAfter now).db = db ∧
    (insertRequestInternal db s gossipAvailable samplingSupported fp p minLat
        expiresAfter now).reg = s ∧
    (insertRequestInternal db s gossipAvailable samplingSupported fp p minLat
        expiresAfter now).gossipSent = false ∧
    (insertRequestInternal db s gossipAvailable samplingSupported fp p minLat
        expiresAfter now).result = none := by
  have hp0 : p ≠ 0 := by
    rcases h with h | h | h
    · exact fun h0 => absurd h (by rw [h0]; exact lt_irrefl 0)
    · exact fun h0 => absurd h (by rw [h0]; norm_num)
    · exact ne_of_gt h.1
  unfold insertRequestInternal
  by_cases h1 : (!gossipAvailable) = true
  · rw [if_pos h1]
    exact ⟨rfl, rfl, rfl, rfl⟩
  · rw [if_neg h1]
    by_cases h2 : (!samplingSupported && p != 0) = true
    · rw [if_pos h2]
      exact ⟨rfl, rfl, rfl, rfl⟩
    · rw [if_neg h2]
      by_cases h3 : p < 0 ∨ 1 < p
      · rw [if_pos h3]
        exact ⟨rfl, rfl, rfl, rfl⟩
      · rw [if_neg h3]
        have hml : minLat = 0 := by
          rcases h with h | h | h
          · exact absurd (Or.inl h) h3
          · exact absurd (Or.inr h) h3
          · exact h.2
        rw [if_pos (by simp [hp0, hml])]
        exact ⟨rfl, rfl, rfl, rfl⟩

/-- C8 witness: probability 2 is rejected with no mutation. -/
theorem C8_insert_validation_witness :
    (insertRequestInternal ⟨[], [], [], 1⟩ ⟨[], [], 0⟩ true true "f" 2 0 0
      0).result = none :=
  (C8_insert_validation ⟨[], [], [], 1⟩ ⟨[], [], 0⟩ true true "f" 2 0 0 0
    (Or.inr (Or.inl (by norm_num)))).2.2.2

/-- C9: when the cluster-version predicate for sampled diagnostics requests
is false, every `InsertRequest` with a nonzero sampling probability errors
out before touching the catalog, the index, or gossip — even if probability
and latency would pass validation. -/
theorem C9_insert_version_gate (db : DB) (s : RegistryState)
    (gossipAvailable : Bool) (fp : String) (p : ℚ)
    (minLat expiresAfter now : Int) (hp : p ≠ 0) :
    (insertRequestInternal db s gossipAvailable false fp p minLat
        expiresAfter now).db = db ∧
    (insertRequestInternal db s gossipAvailable false fp p minLat
        expiresAfter now).reg = s ∧
    (insertRequestInternal db s gossipAvailable false fp p minLat
        expiresAfter now).gossipSent = false ∧
    (insertRequestInternal db s gossipAvailable false fp p minLat
        expiresAfter now).result = none := by
  unfold insertRequestInternal
  by_cases h1 : (!gossipAvailable) = true
  · rw [if_pos h1]
    exact ⟨rfl, rfl, rfl, rfl⟩
  · rw [if_neg h1]
    rw [if_pos (by simp [hp])]
    exact ⟨rfl, rfl, rfl, rfl⟩

/-- C9 witness: probability 1/2 with a positive latency is still rejected when
the version gate is off, with no mutation. -/
theorem C9_insert_version_gate_witness :
    (insertRequestInternal ⟨[], [], [], 1⟩ ⟨[], [], 0⟩ true false "f" (1/2) 100 0
      0).result = none :=
  (C9_insert_version_gate ⟨[], [], [], 1⟩ ⟨[], [], 0⟩ true "f" (1/2) 100 0 0
    (by norm_num)).2.2.2

/-- C10: when `CancelRequest` fails — gossip handle unavailable, or no
pending non-completed non-expired catalog row matches the id — the catalog,
both index maps and the epoch are untouched and no cancellation is
broadcast; the local removal runs exactly when the catalog `UPDATE` returned
a row. -/
theorem C10_cancel_error_frame (db : DB) (s : RegistryState)
    (gossipAvailable updateFails : Bool) (requestID : Nat) (now : Int) :
    (gossipAvailable = false →
      cancelRequestApi db s gossipAvailable updateFails requestID now =
        ⟨db, s, false, false⟩) ∧
    (updateFails = true →
      cancelRequestApi db s gossipAvailable updateFails requestID now =
        ⟨db, s, false, false⟩) ∧
    ((db.requests.filter (fun row =>
        !row.completed && row.id == requestID && expiresOk row.expiresAt
          now)).length = 0 →
      cancelRequestApi db s gossipAvailable updateFails requestID now =
        ⟨db, s, false, false⟩) ∧
    ((cancelRequestApi db s gossipAvailable updateFails requestID now).ok = true →
      (cancelRequestApi db s gossipAvailable updateFails requestID now).reg =
        cancelRequest s requestID) := by
  refine ⟨?_, ?_, ?_, ?_⟩
  · intro hg
    unfold cancelRequestApi
    rw [if_pos (by rw [hg]; rfl)]
  · intro hu
    unfold cancelRequestApi
    by_cases hg : gossipAvailable
    · rw [if_neg (by rw [hg]; exact Bool.false_ne_true), if_pos hu]
    · rw [if_pos (by rw [Bool.not_eq_true] at hg; rw [hg]; rfl)]
  · intro hm
    unfold cancelRequestApi
    by_cases hg : gossipAvailable
    · rw [if_neg (by rw [hg]; exact Bool.false_ne_true)]
      by_cases hu : updateFails = true
      · rw [if_pos hu]
      · rw [if_neg hu]
        dsimp only
        rw [if_pos (by rw [hm]; rfl)]
    · rw [if_pos (by rw [Bool.not_eq_true] at hg; rw [hg]; rfl)]
  · intro hok
    unfold cancelRequestApi at hok ⊢
    by_cases h1 : (!gossipAvailable) = true
    · rw [if_pos h1] at hok
      exact absurd hok Bool.false_ne_true
    · rw [if_neg h1] at hok ⊢
      by_cases hu : updateFails = true
      · rw [if_pos hu] at hok
        exact absurd hok Bool.false_ne_true
      · rw [if_neg hu] at hok ⊢
        dsimp only at hok ⊢
        by_cases h2 : ((db.requests.filter (fun row =>
            !row.completed && row.id == requestID && expiresOk row.expiresAt
              now)).length == 0) = true
        · rw [if_pos h2] at hok
          exact absurd hok Bool.false_ne_true
        · rw [if_neg h2]

/-- C10 witness: cancelling id 9 against a catalog with no matching row
errors and leaves everything unchanged. -/
theorem C10_cancel_error_frame_witness :
    cancelRequestApi ⟨[], [], [], 1⟩ ⟨[(9, Request.empty)], [], 0⟩ true false 9
        0 =
      ⟨⟨[], [], [], 1⟩, ⟨[(9, Request.empty)], [], 0⟩, false, false⟩ :=
  (C10_cancel_error_frame ⟨[], [], [], 1⟩ ⟨[(9, Request.empty)], [], 0⟩ true
    false 9 0).2.2.1 rfl

theorem insertReq_epoch_cases (db : DB) (s : RegistryState)
    (gossipAvailable samplingSupported : Bool) (fp : String) (p : ℚ)
    (minLat expiresAfter now : Int) :
    ((insertRequestInternal db s gossipAvailable samplingSupported fp p minLat
        expiresAfter now).result = none ∧
      (insertRequestInternal db s gossipAvailable samplingSupported fp p minLat
        expiresAfter now).reg = s) ∨
    ((insertRequestInternal db s gossipAvailable samplingSupported fp p minLat
        expiresAfter now).result.isSome = true ∧
      (insertRequestInternal db s gossipAvailable samplingSupported fp p minLat
        expiresAfter now).reg.epoch = s.epoch + 1) := by
  unfold insertRequestInternal
  by_cases h1 : (!gossipAvailable) = true
  · rw [if_pos h1]
    left
    exact ⟨rfl, rfl⟩
  · rw [if_neg h1]
    by_cases h2 : (!samplingSupported && p != 0) = true
    · rw [if_pos h2]
      left
      exact ⟨rfl, rfl⟩
    · rw [if_neg h2]
      by_cases h3 : p < 0 ∨ 1 < p
      · rw [if_pos h3]
        left
        exact ⟨rfl, rfl⟩
      · rw [if_neg h3]
        by_cases h4 : (p != 0 && minLat == 0) = true
        · rw [if_pos h4]
          left
          exact ⟨rfl, rfl⟩
        · rw [if_neg h4]
          by_cases h5 : (countPendingByFingerprint db fp now != 0) = true
          · rw [if_pos h5]
            left
            exact ⟨rfl, rfl⟩
          · rw [if_neg h5]
            right
            refine ⟨rfl, ?_⟩
            dsimp only
            rw [addReq_epoch]

theorem cancelApi_reg_cases (db : DB) (s : RegistryState)
    (gossipAvailable updateFails : Bool) (requestID : Nat) (now : Int) :
    (cancelRequestApi db s gossipAvailable updateFails requestID now).reg = s ∨
    (cancelRequestApi db s gossipAvailable updateFails requestID now).reg =
      cancelRequest s requestID := by
  unfold cancelRequestApi
  by_cases h1 : (!gossipAvailable) = true
  · rw [if_pos h1]
    left
    rfl
  · rw [if_neg h1]
    by_cases hu : updateFails = true
    · rw [if_pos hu]
      left
      rfl
    · rw [if_neg hu]
      dsimp only
      by_cases h2 : ((db.requests.filter (fun row =>
          !row.completed && row.id == requestID && expiresOk row.expiresAt
            now)).length == 0) = true
      · rw [if_pos h2]
        left
        rfl
      · rw [if_neg h2]
        right
        rfl

/-- C6 counterexample: a successful `CancelRequest` against a catalog holding
the pending row removes the entry from the local index — a local mutation a
concurrent poll could overwrite — yet leaves the epoch at 0 instead of
incrementing it, contradicting the claim that CancelRequest's local removal
increments the epoch. -/
theorem C6_cancel_no_epoch_bump :
    (cancelRequestApi ⟨[⟨1, "q", 0, none, none, false, none, 0⟩], [], [], 2⟩
        ⟨[(1, ⟨"q", 0, 0, none⟩)], [], 0⟩ true false 1 5).ok = true ∧
    (cancelRequestApi ⟨[⟨1, "q", 0, none, none, false, none, 0⟩], [], [], 2⟩
        ⟨[(1, ⟨"q", 0, 0, none⟩)], [], 0⟩ true false 1
          5).reg.requestFingerprints = [] ∧
    (cancelRequestApi ⟨[⟨1, "q", 0, none, none, false, none, 0⟩], [], [], 2⟩
        ⟨[(1, ⟨"q", 0, 0, none⟩)], [], 0⟩ true false 1 5).reg.epoch = 0 := by
  refine ⟨?_, ?_, ?_⟩ <;> rfl

/-- C6 (amended): the epoch is monotonically non-decreasing across every
operation of the registry, and the local add performed by a successful
`InsertRequest` increments it by one; the local removal performed by
`CancelRequest`, however, leaves the epoch unchanged. -/
theorem C6_epoch_monotonic_amended (db : DB) (s : RegistryState)
    (id : RequestID) (req : Request) (fp fp2 : String) (now u2lat : Int) (u : ℚ)
    (rows : List PollRow) (gossipAvailable samplingSupported updateFails : Bool)
    (p : ℚ) (minLat expiresAfter : Int) (requestID : Nat) :
    s.epoch ≤ (addRequestInternalLocked s id req now).epoch ∧
    s.epoch ≤ (shouldCollectDiagnostics s fp now u).1.epoch ∧
    s.epoch ≤ (cancelRequest s id).epoch ∧
    s.epoch ≤ (removeOngoing s id req now).epoch ∧
    s.epoch ≤ (findRequest s id now).1.epoch ∧
    s.epoch ≤ (isExecLatencyConditionMet s id req u2lat now).1.epoch ∧
    s.epoch ≤ (applyPollRows s rows now).epoch ∧
    s.epoch ≤ (insertRequestInternal db s gossipAvailable samplingSupported fp2
      p minLat expiresAfter now).reg.epoch ∧
    s.epoch ≤
      (cancelRequestApi db s gossipAvailable updateFails requestID
        now).reg.epoch ∧
    ((insertRequestInternal db s gossipAvailable samplingSupported fp2 p minLat
        expiresAfter now).result.isSome = true →
      (insertRequestInternal db s gossipAvailable samplingSupported fp2 p minLat
        expiresAfter now).reg.epoch = s.epoch + 1) ∧
    (cancelRequest s id).epoch = s.epoch := by
  refine ⟨le_of_eq (addReq_epoch s id req now).symm, ?_, le_refl _, ?_, ?_, ?_,
    ?_, ?_, ?_, ?_, rfl⟩
  · rcases scd_state s fp now u with hs | ⟨i, hs⟩ | ⟨i, f, hs⟩ <;> rw [hs]
  · unfold removeOngoing
    split
    · split
      · exact le_refl _
      · exact le_refl _
    · exact le_refl _
  · unfold findRequest
    rcases findRequestLocked_state s id now with hs | hs <;> rw [hs]
  · unfold isExecLatencyConditionMet
    split
    · exact le_refl _
    · split
      · exact le_refl _
      · exact le_refl _
  · rw [applyPollRows_epoch_fold, foldAddRows_epoch]
  · rcases insertReq_epoch_cases db s gossipAvailable samplingSupported fp2 p
        minLat expiresAfter now with ⟨_, hr⟩ | ⟨_, hr⟩
    · rw [hr]
    · rw [hr]
      omega
  · rcases cancelApi_reg_cases db s gossipAvailable updateFails requestID now
        with hr | hr <;> rw [hr]
    exact le_of_eq rfl
  · intro hsome
    rcases insertReq_epoch_cases db s gossipAvailable samplingSupported fp2 p
        minLat expiresAfter now with ⟨hn, _⟩ | ⟨_, hr⟩
    · rw [hn] at hsome
      exact absurd hsome Bool.false_ne_true
    · exact hr

/-- C6 amended-claim witness: a successful insert at a concrete empty state
bumps the epoch from 0 to 1. -/
theorem C6_epoch_monotonic_amended_witness :
    (insertRequestInternal ⟨[], [], [], 1⟩ ⟨[], [], 0⟩ true true "f" 0 0 0
      0).reg.epoch = 0 + 1 :=
  (C6_epoch_monotonic_amended ⟨[], [], [], 1⟩ ⟨[], [], 0⟩ 1 Request.empty "f"
    "f" 0 0 0 [] true true false 0 0 0 1).2.2.2.2.2.2.2.2.2.1 rfl

end StmtDiag
